import Mathlib

/-!
# Verification of the vehiql car-marketplace server actions

A shallow embedding of the repository's server actions
(`getCarFilters`, `getCars`, `toggleSavedCar`, `getCarById` from
`src/actions/carListing`, and `getDealershipInfo`, `saveWorkingHours`,
`updateUserRole` from `src/actions/settings.ts`) over the Prisma schema
(`prisma/schema.prisma`).

Modelling conventions, chosen once and used throughout:
* The relational store is a record of lists, one per Prisma model; each
  Prisma query is translated to the corresponding list operation.  Prisma
  behaviours that the code relies on are modelled explicitly and noted at
  the definition that uses them (negative `skip` is rejected by the client,
  an `undefined` value inside `where` omits that condition, `distinct` +
  `orderBy` yields the sorted distinct values).
* JavaScript numbers are restricted to integers (`Int`); `Decimal(10, 2)`
  prices are exact decimals and are likewise modelled as integers.  Floating
  point is out of scope.
* `Date` values are modelled as `Nat` timestamps; `toISOString` is modelled
  as an injective rendering to `String`.
* `uuid()` defaults are modelled as deterministic fresh identifiers; no
  claim inspects identifier values.
* The external identity provider (`auth()`) is a parameter of type
  `Option String` (the Clerk user id, or `none` when unauthenticated).
* Thrown errors and `success: false` results are kept apart exactly as the
  source keeps them.
-/

/-- The `string | number` union used by `GetCarsParams.minPrice/maxPrice`. -/
inductive StrNum where
  | str (s : String)
  | num (n : Int)
deriving DecidableEq

/-- JavaScript truthiness on `string | number`: the empty string and the
number 0 are falsy, everything else is truthy. -/
def StrNum.truthy : StrNum → Bool
  | .str s => s ≠ ""
  | .num n => n ≠ 0

/-- JS `parseFloat` on a string, restricted to the integer numerals this
development uses; `none` stands for `NaN` (e.g. `parseFloat("")`). -/
def jsParseFloat (s : String) : Option Int :=
  s.toInt?

/-- `parseFloat(v as string)`: a number is stringified and re-parsed, which
yields the number back; a string goes through `jsParseFloat`. -/
def StrNum.parseFloat : StrNum → Option Int
  | .str s => jsParseFloat s
  | .num n => some n

/-- `CarStatus` enum of the Prisma schema. -/
inductive CarStatus where
  | AVAILABLE
  | UNAVAILABLE
  | SOLD
deriving DecidableEq

/-- `BookingStatus` enum of the Prisma schema. -/
inductive BookingStatus where
  | PENDING
  | CONFIRMED
  | COMPLETED
  | CANCELLED
  | NO_SHOW
deriving DecidableEq

/-- `UserRole` enum of the Prisma schema. -/
inductive UserRole where
  | USER
  | ADMIN
deriving DecidableEq

/-- `DayOfWeek` enum of the Prisma schema. -/
inductive DayOfWeek where
  | MONDAY
  | TUESDAY
  | WEDNESDAY
  | THURSDAY
  | FRIDAY
  | SATURDAY
  | SUNDAY
deriving DecidableEq

/-- Position of a day in the enum declaration: Postgres orders an enum
column by declaration order, which is what `orderBy: { dayOfWeek: "asc" }`
sorts by. -/
def DayOfWeek.idx : DayOfWeek → Nat
  | .MONDAY => 0
  | .TUESDAY => 1
  | .WEDNESDAY => 2
  | .THURSDAY => 3
  | .FRIDAY => 4
  | .SATURDAY => 5
  | .SUNDAY => 6

/-- The `Car` model of the Prisma schema.  `price` is a `Decimal(10, 2)`
modelled as an exact integer; `createdAt` is a timestamp. -/
structure Car where
  id : String
  brand : String
  model : String
  year : Int
  price : Int
  mileage : String
  color : String
  fuelType : String
  transmission : String
  bodyType : String
  seats : Option Int
  description : String
  status : CarStatus
  featured : Bool
  images : List String
  createdAt : Nat
deriving DecidableEq

/-- The `User` model of the Prisma schema (fields the actions read). -/
structure User where
  id : String
  clerkUserId : String
  email : String
  role : UserRole
  createdAt : Nat
deriving DecidableEq

/-- The `UserSavedCar` join model; `@@unique([userId, carId])`. -/
structure UserSavedCar where
  id : String
  userId : String
  carId : String
  savedAt : Nat
deriving DecidableEq

/-- The `TestDriveBooking` model (fields the actions read). -/
structure TestDriveBooking where
  id : String
  carId : String
  userId : String
  bookingDate : Nat
  startTime : String
  endTime : String
  status : BookingStatus
  createdAt : Nat
deriving DecidableEq

/-- The `DealershipInfo` model. -/
structure DealershipInfo where
  id : String
  name : String
  address : String
  phone : String
  email : String
  createdAt : Nat
  updatedAt : Nat
deriving DecidableEq

/-- The `WorkingHour` model; `@@unique([dealershipId, dayOfWeek])`. -/
structure WorkingHour where
  id : String
  dealershipId : String
  dayOfWeek : DayOfWeek
  openTime : String
  closeTime : String
  isOpen : Bool
deriving DecidableEq

/-- The relational store: one list per Prisma model. -/
structure DB where
  users : List User
  cars : List Car
  savedCars : List UserSavedCar
  testDrives : List TestDriveBooking
  dealerships : List DealershipInfo
  workingHours : List WorkingHour
deriving DecidableEq

/-- `toISOString` modelled as an injective rendering of the timestamp. -/
def isoString (t : Nat) : String :=
  toString t

/-- Does `hay` begin with `needle` (on character lists)? -/
def beginsWith : List Char → List Char → Bool
  | _, [] => true
  | [], _ :: _ => false
  | a :: as, b :: bs => a = b && beginsWith as bs

/-- Does `hay` contain `needle` as a contiguous run (on character lists)? -/
def containsSub : List Char → List Char → Bool
  | hay, needle =>
    beginsWith hay needle ||
      match hay with
      | [] => false
      | _ :: t => containsSub t needle

/-- Prisma `contains` with `mode: "insensitive"`: case-insensitive substring
match, modelled by lower-casing both sides. -/
def containsInsensitive (hay needle : String) : Bool :=
  containsSub hay.toLower.data needle.toLower.data

/-- Prisma `equals` with `mode: "insensitive"`. -/
def eqInsensitive (a b : String) : Bool :=
  a.toLower = b.toLower

/-- The transport record produced by the serialization layer, carrying the
wishlist flag that `getCars`/`getCarById` attach. -/
structure SerializedCar where
  id : String
  brand : String
  model : String
  year : Int
  price : Int
  fuelType : String
  transmission : String
  bodyType : String
  status : CarStatus
  wishlisted : Bool
  createdAt : String
deriving DecidableEq

/-- Modelled from the spec: `serializeCarData` lives in `src/lib/helper`,
which is not among the provided sources.  Per the spec's serialization-layer
contract it is a pure transform that copies the listing's fields, turns the
fixed-point price into a plain number, turns timestamps into canonical
strings, and (as used at every call site) records the caller-supplied
wishlist flag. -/
def serializeCarData (car : Car) (wishlisted : Bool) : SerializedCar :=
  { id := car.id
    brand := car.brand
    model := car.model
    year := car.year
    price := car.price
    fuelType := car.fuelType
    transmission := car.transmission
    bodyType := car.bodyType
    status := car.status
    wishlisted := wishlisted
    createdAt := isoString car.createdAt }

/-- Minimum of a list of integers (`none` on the empty list); Prisma
`aggregate` `_min`. -/
def listMin : List Int → Option Int
  | [] => none
  | x :: xs => some (xs.foldl min x)

/-- Maximum of a list of integers (`none` on the empty list); Prisma
`aggregate` `_max`. -/
def listMax : List Int → Option Int
  | [] => none
  | x :: xs => some (xs.foldl max x)

/-- The listings with `status: "AVAILABLE"`, the predicate every
`getCarFilters` query filters by. -/
def availableCars (db : DB) : List Car :=
  db.cars.filter (fun c => c.status = CarStatus.AVAILABLE)

/-- Prisma `findMany` with `distinct` on one column and `orderBy` that
column ascending: the distinct values, sorted.  String order is the
code-point (ordinal) order. -/
def distinctSorted (l : List String) : List String :=
  List.insertionSort (fun a b => a ≤ b) l.dedup

/-- The `priceRange` object of `getCarFilters`. -/
structure PriceRange where
  min : Int
  max : Int
deriving DecidableEq

/-- The `data` payload of `getCarFilters`. -/
structure CarFiltersData where
  brands : List String
  bodyTypes : List String
  fuelTypes : List String
  transmissions : List String
  priceRange : PriceRange
deriving DecidableEq

/-- `getCarFilters` (src/actions/carListing): distinct brands, body types,
fuel types and transmissions of the AVAILABLE listings, each sorted
ascending, plus the min/max price aggregate over the same set.  A `Decimal`
aggregate result is an object, truthy even at 0, so the `min : 0` /
`max : 100000` fallbacks apply exactly when the aggregate is null, i.e.
when no AVAILABLE listing exists. -/
def getCarFilters (db : DB) : CarFiltersData :=
  { brands := distinctSorted ((availableCars db).map (fun c => c.brand))
    bodyTypes := distinctSorted ((availableCars db).map (fun c => c.bodyType))
    fuelTypes := distinctSorted ((availableCars db).map (fun c => c.fuelType))
    transmissions := distinctSorted ((availableCars db).map (fun c => c.transmission))
    priceRange :=
      { min := (listMin ((availableCars db).map (fun c => c.price))).getD 0
        max := (listMax ((availableCars db).map (fun c => c.price))).getD 100000 } }

/-- The `sortBy` option of `getCars`. -/
inductive SortBy where
  | newest
  | priceAsc
  | priceDesc
deriving DecidableEq

/-- The parameter object of `getCars`, with the source's defaults. -/
structure GetCarsParams where
  search : String := ""
  brand : String := ""
  bodyType : String := ""
  fuelType : String := ""
  transmission : String := ""
  minPrice : StrNum := .str ""
  maxPrice : StrNum := .str ""
  sortBy : SortBy := .newest
  page : Int := 1
  limit : Int := 6
deriving DecidableEq

/-- The lower price bound of the `where` clause:
`gte: parseFloat(minPrice as string) || 0` (`NaN` and 0 both fall back
to 0). -/
def minPriceVal (p : GetCarsParams) : Int :=
  (p.minPrice.parseFloat).getD 0

/-- The upper price bound of the `where` clause: set only when `maxPrice`
is truthy (`if (maxPrice && maxPrice)`); `none` means no upper bound.  A
truthy but unparsable `maxPrice` yields `NaN`, which the query layer
rejects — see `maxPriceBad`. -/
def maxPriceVal (p : GetCarsParams) : Option Int :=
  if p.maxPrice.truthy then p.maxPrice.parseFloat else none

/-- A truthy `maxPrice` that parses to `NaN`: `lte: NaN` is an invalid
`Decimal` filter value and makes the store query throw. -/
def maxPriceBad (p : GetCarsParams) : Bool :=
  p.maxPrice.truthy && p.maxPrice.parseFloat.isNone

/-- The `where` clause `getCars` builds, as a predicate on a listing: always
`status: "AVAILABLE"`; a non-empty `search` must case-insensitively
substring-match brand, model or description; each non-empty categorical
filter must case-insensitively equal its column; the price must meet the
bounds of `minPriceVal`/`maxPriceVal`. -/
def carMatches (p : GetCarsParams) (c : Car) : Bool :=
  (c.status = CarStatus.AVAILABLE)
    && (p.search = "" ||
        (containsInsensitive c.brand p.search ||
         containsInsensitive c.model p.search ||
         containsInsensitive c.description p.search))
    && (p.brand = "" || eqInsensitive c.brand p.brand)
    && (p.bodyType = "" || eqInsensitive c.bodyType p.bodyType)
    && (p.fuelType = "" || eqInsensitive c.fuelType p.fuelType)
    && (p.transmission = "" || eqInsensitive c.transmission p.transmission)
    && (minPriceVal p ≤ c.price)
    && (match maxPriceVal p with
        | none => true
        | some v => decide (c.price ≤ v))

/-- The listings matching the `where` clause; both the `count` query and the
page `findMany` of `getCars` run over exactly this set. -/
def matchingCars (p : GetCarsParams) (db : DB) : List Car :=
  db.cars.filter (carMatches p)

/-- The `orderBy` of `getCars`: `createdAt` descending for `newest`
(the `default` branch of the switch), price ascending/descending
otherwise. -/
def sortCars (s : SortBy) (cars : List Car) : List Car :=
  match s with
  | .newest => List.insertionSort (fun a b => b.createdAt ≤ a.createdAt) cars
  | .priceAsc => List.insertionSort (fun a b => a.price ≤ b.price) cars
  | .priceDesc => List.insertionSort (fun a b => b.price ≤ a.price) cars

/-- Prisma `take`: non-negative takes from the front; a negative value
selects from the end of the list. -/
def jsTake (l : List α) (n : Int) : List α :=
  if 0 ≤ n then l.take n.toNat
  else (l.reverse.take (-n).toNat).reverse

/-- `Math.ceil(total / limit)` on the integer values this model admits.
For `limit = 0` JavaScript yields `Infinity`/`NaN`, which no integer
represents; that case is collapsed to 0 here and every theorem about
`pages` assumes a non-zero `limit`. -/
def jsCeilDiv (total : Nat) (limit : Int) : Int :=
  if 0 < limit then ((total + limit.toNat - 1) / limit.toNat : Nat)
  else if limit < 0 then -((total / (-limit).toNat : Nat) : Int)
  else 0

/-- The pagination metadata of a `getCars` result. -/
structure Pagination where
  total : Nat
  page : Int
  limit : Int
  pages : Int
deriving DecidableEq

/-- The success payload of `getCars`. -/
structure GetCarsOk where
  data : List SerializedCar
  pagination : Pagination
deriving DecidableEq

/-- The user record of the authenticated caller, when both the identity
provider returns an id and a `User` row carries it as `clerkUserId`. -/
def dbUserOf (authUserId : Option String) (db : DB) : Option User :=
  match authUserId with
  | none => none
  | some uid => db.users.find? (fun u => u.clerkUserId = uid)

/-- The caller's saved-listing ids, fetched in one query
(`userSavedCar.findMany` on `userId`); empty when there is no caller
record. -/
def wishlistedIds (dbUser : Option User) (db : DB) : List String :=
  match dbUser with
  | none => []
  | some u => (db.savedCars.filter (fun s => s.userId = u.id)).map (fun s => s.carId)

/-- `getCars` (src/actions/carListing).  Errors are the thrown paths: a
truthy-but-`NaN` `maxPrice` makes the store reject the filter, and
`skip = (page - 1) * limit`, computed with no clamping, is rejected by the
store when negative.  Otherwise the matching set is counted, sorted, paged
with `skip`/`take`, wishlist-flagged by membership in the caller's saved
set, and returned with `pages = Math.ceil(total / limit)`. -/
def getCars (authUserId : Option String) (p : GetCarsParams) (db : DB) :
    Except String GetCarsOk :=
  if maxPriceBad p then .error "Error fetching cars: invalid price filter"
  else if (p.page - 1) * p.limit < 0 then .error "Error fetching cars: negative skip"
  else
    .ok
      { data :=
          (jsTake ((sortCars p.sortBy (matchingCars p db)).drop
            ((p.page - 1) * p.limit).toNat) p.limit).map
            (fun c => serializeCarData c
              ((wishlistedIds (dbUserOf authUserId db) db).contains c.id))
        pagination :=
          { total := (matchingCars p db).length
            page := p.page
            limit := p.limit
            pages := jsCeilDiv (matchingCars p db).length p.limit } }

/-- The result of `toggleSavedCar`: `ok` is the `success: true` shape with
its `saved` flag and message, `notFound` the `success: false` shape returned
when the listing does not exist, and `thrown` the rethrown error path
(unauthenticated caller, or no user record). -/
inductive ToggleResult where
  | ok (saved : Bool) (message : String)
  | notFound (error : String)
  | thrown (error : String)
deriving DecidableEq

/-- The `saved` flag of a successful toggle, `none` on either failure
shape. -/
def ToggleResult.savedFlag : ToggleResult → Option Bool
  | .ok saved _ => some saved
  | .notFound _ => none
  | .thrown _ => none

/-- Does the store hold a saved-listing association for this
(user, listing) pair? -/
def savedAssoc (db : DB) (userId carId : String) : Bool :=
  db.savedCars.any (fun s => s.userId = userId && s.carId = carId)

/-- The saved-listing row `toggleSavedCar` creates (`uuid()`/`now()`
defaults modelled deterministically). -/
def newSavedRec (userId carId : String) : UserSavedCar :=
  { id := "saved:" ++ userId ++ ":" ++ carId
    userId := userId
    carId := carId
    savedAt := 0 }

/-- `toggleSavedCar` (src/actions/carListing): require an authenticated
caller with a user record, require the listing to exist, then look the
(user, listing) association up by its unique key and either delete it
(reporting `saved: false`) or create it (reporting `saved: true`).  The
created row's `uuid()`/`now()` defaults are modelled deterministically. -/
def toggleSavedCar (authUserId : Option String) (carId : String) (db : DB) :
    ToggleResult × DB :=
  match authUserId with
  | none => (.thrown "Error toggling saved car: Unauthorized", db)
  | some uid =>
    match db.users.find? (fun u => u.clerkUserId = uid) with
    | none => (.thrown "Error toggling saved car: User not found", db)
    | some user =>
      match db.cars.find? (fun c => c.id = carId) with
      | none => (.notFound "Car not found", db)
      | some _ =>
        match db.savedCars.find? (fun s => s.userId = user.id && s.carId = carId) with
        | some _ =>
          (.ok false "Car removed from favorites",
            { db with savedCars :=
                db.savedCars.filter (fun s => !(s.userId = user.id && s.carId = carId)) })
        | none =>
          (.ok true "Car added to favorites",
            { db with savedCars := db.savedCars ++ [newSavedRec user.id carId] })

/-- The `userTestDrive` object of a `getCarById` payload. -/
structure UserTestDrive where
  id : String
  status : BookingStatus
  bookingDate : String
deriving DecidableEq

/-- A serialized working hour as `getCarById` returns it. -/
structure SerializedWorkingHour where
  id : String
  dealershipId : String
  dayOfWeek : DayOfWeek
  openTime : String
  closeTime : String
  isOpen : Bool
deriving DecidableEq

/-- A serialized dealership record with its working hours. -/
structure SerializedDealership where
  id : String
  name : String
  address : String
  phone : String
  email : String
  createdAt : String
  updatedAt : String
  workingHours : List SerializedWorkingHour
deriving DecidableEq

/-- The `testDriveInfo` object of a `getCarById` payload. -/
structure TestDriveInfo where
  userTestDrive : Option UserTestDrive
  dealership : Option SerializedDealership
deriving DecidableEq

/-- The success payload of `getCarById`. -/
structure CarDetails where
  car : SerializedCar
  testDriveInfo : TestDriveInfo
deriving DecidableEq

/-- The booking filter of `getCarById`'s `testDriveBooking.findFirst`.
The source passes `userId: dbUser?.id`; when there is no caller record that
value is `undefined`, and Prisma drops an `undefined` condition from the
`where` clause entirely, so the user constraint only applies when a caller
record exists. -/
def testDriveWhere (dbUser : Option User) (carId : String)
    (b : TestDriveBooking) : Bool :=
  b.carId = carId
    && (match dbUser with
        | none => true
        | some u => decide (b.userId = u.id))
    && (b.status = BookingStatus.PENDING
        || b.status = BookingStatus.CONFIRMED
        || b.status = BookingStatus.COMPLETED)

/-- `findFirst` with `orderBy: { createdAt: "desc" }`: the head of the
matching rows sorted newest-first. -/
def latestTestDrive (dbUser : Option User) (carId : String) (db : DB) :
    Option TestDriveBooking :=
  (List.insertionSort (fun a b => b.createdAt ≤ a.createdAt)
    (db.testDrives.filter (testDriveWhere dbUser carId))).head?

/-- The dealership payload of `getCarById`: `dealershipInfo.findFirst`
with its working hours included (a plain read; no lazy create here). -/
def dealershipOf (db : DB) : Option SerializedDealership :=
  match db.dealerships.head? with
  | none => none
  | some d =>
    some
      { id := d.id
        name := d.name
        address := d.address
        phone := d.phone
        email := d.email
        createdAt := isoString d.createdAt
        updatedAt := isoString d.updatedAt
        workingHours :=
          (db.workingHours.filter (fun h => h.dealershipId = d.id)).map
            (fun h =>
              { id := h.id
                dealershipId := h.dealershipId
                dayOfWeek := h.dayOfWeek
                openTime := h.openTime
                closeTime := h.closeTime
                isOpen := h.isOpen }) }

/-- `getCarById` (src/actions/carListing): resolve the listing id
(`Car not found` otherwise), flag it as wishlisted when the caller's
(user, listing) association exists, attach the most recent booking matched
by `testDriveWhere` and the dealership record. -/
def getCarById (authUserId : Option String) (carId : String) (db : DB) :
    Except String CarDetails :=
  match db.cars.find? (fun c => c.id = carId) with
  | none => .error "Car not found"
  | some car =>
    let dbUser := dbUserOf authUserId db
    let isWishlisted :=
      match dbUser with
      | none => false
      | some u =>
        (db.savedCars.find? (fun s => s.userId = u.id && s.carId = carId)).isSome
    .ok
      { car := serializeCarData car isWishlisted
        testDriveInfo :=
          { userTestDrive :=
              match latestTestDrive dbUser carId db with
              | none => none
              | some b =>
                some { id := b.id, status := b.status,
                       bookingDate := isoString b.bookingDate }
            dealership := dealershipOf db } }

/-- The Prisma enum literal of a day, used for deterministic created-row
identifiers. -/
def dayName : DayOfWeek → String
  | .MONDAY => "MONDAY"
  | .TUESDAY => "TUESDAY"
  | .WEDNESDAY => "WEDNESDAY"
  | .THURSDAY => "THURSDAY"
  | .FRIDAY => "FRIDAY"
  | .SATURDAY => "SATURDAY"
  | .SUNDAY => "SUNDAY"

/-- `orderBy: { dayOfWeek: "asc" }` on working hours (enum declaration
order). -/
def sortWorkingHours (l : List WorkingHour) : List WorkingHour :=
  List.insertionSort (fun a b => a.dayOfWeek.idx ≤ b.dayOfWeek.idx) l

/-- The seven default working-hour rows `getDealershipInfo` creates for a
fresh dealership `did`: Monday to Friday 09:00-18:00 open, Saturday
10:00-16:00 open, Sunday 10:00-16:00 closed.  Row ids (`uuid()` in the
schema) are modelled deterministically from the day. -/
def defaultWorkingHours (did : String) : List WorkingHour :=
  [ { id := did ++ "/MONDAY", dealershipId := did, dayOfWeek := .MONDAY,
      openTime := "09:00", closeTime := "18:00", isOpen := true },
    { id := did ++ "/TUESDAY", dealershipId := did, dayOfWeek := .TUESDAY,
      openTime := "09:00", closeTime := "18:00", isOpen := true },
    { id := did ++ "/WEDNESDAY", dealershipId := did, dayOfWeek := .WEDNESDAY,
      openTime := "09:00", closeTime := "18:00", isOpen := true },
    { id := did ++ "/THURSDAY", dealershipId := did, dayOfWeek := .THURSDAY,
      openTime := "09:00", closeTime := "18:00", isOpen := true },
    { id := did ++ "/FRIDAY", dealershipId := did, dayOfWeek := .FRIDAY,
      openTime := "09:00", closeTime := "18:00", isOpen := true },
    { id := did ++ "/SATURDAY", dealershipId := did, dayOfWeek := .SATURDAY,
      openTime := "10:00", closeTime := "16:00", isOpen := true },
    { id := did ++ "/SUNDAY", dealershipId := did, dayOfWeek := .SUNDAY,
      openTime := "10:00", closeTime := "16:00", isOpen := false } ]

/-- The id of a dealership row created by the lazy-create path (`uuid()`
modelled deterministically). -/
def newDealershipId (db : DB) : String :=
  "dealership:" ++ toString db.dealerships.length

/-- The success payload of `getDealershipInfo`: the dealership row spread
with its two timestamps serialized and its working hours included, sorted
by day. -/
structure DealershipPayload where
  id : String
  name : String
  address : String
  phone : String
  email : String
  createdAt : String
  updatedAt : String
  workingHours : List WorkingHour
deriving DecidableEq

/-- Payload assembly shared by both branches of `getDealershipInfo`. -/
def dealershipPayload (d : DealershipInfo) (hours : List WorkingHour) :
    DealershipPayload :=
  { id := d.id
    name := d.name
    address := d.address
    phone := d.phone
    email := d.email
    createdAt := isoString d.createdAt
    updatedAt := isoString d.updatedAt
    workingHours := sortWorkingHours hours }

/-- `getDealershipInfo` (src/actions/settings.ts): requires an
authenticated caller (no role check); returns the first dealership row with
its working hours, and when none exists creates one — with the schema's
column defaults for name/address/phone/email and the seven
`defaultWorkingHours` rows — and returns it. -/
def getDealershipInfo (authUserId : Option String) (db : DB) :
    Except String DealershipPayload × DB :=
  match authUserId with
  | none => (.error "Error fetching dealership infoUnauthorized", db)
  | some _ =>
    match db.dealerships.head? with
    | some d =>
      (.ok (dealershipPayload d
        (db.workingHours.filter (fun h => h.dealershipId = d.id))), db)
    | none =>
      let did := newDealershipId db
      let d : DealershipInfo :=
        { id := did
          name := "Autora Motors"
          address := "69 Car Street, MH,IN"
          phone := "+91 12345 67890"
          email := "contact@autora.com"
          createdAt := 0
          updatedAt := 0 }
      (.ok (dealershipPayload d (defaultWorkingHours did)),
        { db with
            dealerships := db.dealerships ++ [d]
            workingHours := db.workingHours ++ defaultWorkingHours did })

/-- The per-row `workingHour.create` loop of `saveWorkingHours`: each
created row clones the input's day and times under the dealership's id.
`@@unique([dealershipId, dayOfWeek])` makes a create for an already-present
day throw, leaving the rows created so far in place (the delete-then-insert
pair is not transactional). -/
def insertWorkingHours (did : String) (db : DB) :
    List WorkingHour → Except String DB
  | [] => .ok db
  | h :: rest =>
    if db.workingHours.any
        (fun w => w.dealershipId = did && w.dayOfWeek = h.dayOfWeek) then
      .error "Unique constraint failed"
    else
      insertWorkingHours did
        { db with workingHours :=
            db.workingHours ++
              [{ id := "wh:" ++ did ++ "/" ++ dayName h.dayOfWeek
                 dealershipId := did
                 dayOfWeek := h.dayOfWeek
                 openTime := h.openTime
                 closeTime := h.closeTime
                 isOpen := h.isOpen }] }
        rest

/-- `saveWorkingHours` (src/actions/settings.ts): caller must be
authenticated, hold a user record, and that record's role must be ADMIN
(a fresh lookup by the caller's own verified id); then all working-hour
rows of the first dealership are deleted and the supplied rows inserted
one by one. -/
def saveWorkingHours (authUserId : Option String) (hours : List WorkingHour)
    (db : DB) : Except String Unit × DB :=
  match authUserId with
  | none => (.error "Error saving working hours: Unauthorized", db)
  | some uid =>
    match db.users.find? (fun u => u.clerkUserId = uid) with
    | none =>
      (.error "Error saving working hours: Unauthorized: Admin access required", db)
    | some user =>
      if user.role = UserRole.ADMIN then
        match db.dealerships.head? with
        | none => (.error "Error saving working hours: Dealership info not found", db)
        | some d =>
          let cleared :=
            { db with workingHours :=
                db.workingHours.filter (fun h => h.dealershipId ≠ d.id) }
          match insertWorkingHours d.id cleared hours with
          | .ok db' => (.ok (), db')
          | .error e => (.error ("Error saving working hours: " ++ e), cleared)
      else
        (.error "Error saving working hours: Unauthorized: Admin access required", db)

/-- `updateUserRole` (src/actions/settings.ts): a falsy (empty) target id is
rejected; the `!role` guard can never fire for an enum value and is not
represented.  The caller must be authenticated and their own freshly
looked-up record must have role ADMIN; the client-supplied `role` argument
is only ever written to the target row, never consulted for the check.
`user.update` on an id that matches no row throws (Prisma P2025). -/
def updateUserRole (authUserId : Option String) (id : String) (role : UserRole)
    (db : DB) : Except String Unit × DB :=
  if id = "" then (.error "Error updating user role: Missing user", db)
  else
    match authUserId with
    | none => (.error "Error updating user role: Unauthorized", db)
    | some uid =>
      match db.users.find? (fun u => u.clerkUserId = uid) with
      | none =>
        (.error "Error updating user role: Unauthorized: Admin access required", db)
      | some adminUser =>
        if adminUser.role = UserRole.ADMIN then
          if db.users.any (fun u => u.id = id) then
            (.ok (),
              { db with users :=
                  db.users.map (fun u => if u.id = id then { u with role := role } else u) })
          else
            (.error "Error updating user role: record not found", db)
        else
          (.error "Error updating user role: Unauthorized: Admin access required", db)

/-- The caller passes the admin gate of the settings actions: authenticated,
holding a user record looked up by the verified identity, with role ADMIN. -/
def isAdminCaller (authUserId : Option String) (db : DB) : Bool :=
  match authUserId with
  | none => false
  | some uid =>
    match db.users.find? (fun u => u.clerkUserId = uid) with
    | none => false
    | some u => u.role = UserRole.ADMIN

/-- Concrete-listing builder for the worked examples below. -/
def mkCar (id brand model description : String) (price : Int) (createdAt : Nat) : Car :=
  { id := id
    brand := brand
    model := model
    year := 2020
    price := price
    mileage := "15000 km"
    color := "red"
    fuelType := "Petrol"
    transmission := "Manual"
    bodyType := "Sedan"
    seats := some 5
    description := description
    status := .AVAILABLE
    featured := false
    images := []
    createdAt := createdAt }

/-- Example listing: Honda at 10000. -/
def car1 : Car := mkCar "c1" "Honda" "Civic" "clean sedan" 10000 1

/-- Example listing: Toyota at 20000. -/
def car2 : Car := mkCar "c2" "Toyota" "Corolla" "family car" 20000 2

/-- Example user with role USER. -/
def user1 : User :=
  { id := "u1", clerkUserId := "clerk1", email := "u1@example.com",
    role := .USER, createdAt := 0 }

/-- A second example user with role USER. -/
def user2 : User :=
  { id := "u2", clerkUserId := "clerk2", email := "u2@example.com",
    role := .USER, createdAt := 0 }

/-- Example store: two listings, two users, and one saved-listing
association belonging to `user2`. -/
def db2 : DB :=
  { users := [user1, user2]
    cars := [car1, car2]
    savedCars := [{ id := "s1", userId := "u2", carId := "c1", savedAt := 0 }]
    testDrives := []
    dealerships := []
    workingHours := [] }

/-- A PENDING test-drive booking by `user2` on `car1`. -/
def booking1 : TestDriveBooking :=
  { id := "b1", carId := "c1", userId := "u2", bookingDate := 5,
    startTime := "10:00", endTime := "11:00", status := .PENDING,
    createdAt := 10 }

/-- Example store for the listing-detail assembler: one listing and one
booking on it owned by `user2`. -/
def db7 : DB :=
  { users := [user2]
    cars := [car1]
    savedCars := []
    testDrives := [booking1]
    dealerships := []
    workingHours := [] }

/-- Ten available listings for the pagination examples. -/
def cars10 : List Car :=
  (List.range 10).map
    (fun (n : Nat) => mkCar ("car" ++ toString n) "Brand" "Model" "desc"
      (1000 * ((n : Int) + 1)) n)

/-- Example store with exactly ten matching listings. -/
def db10 : DB :=
  { users := [], cars := cars10, savedCars := [], testDrives := [],
    dealerships := [], workingHours := [] }

/-- The empty store. -/
def emptyDB : DB :=
  { users := [], cars := [], savedCars := [], testDrives := [],
    dealerships := [], workingHours := [] }

/-! ## Theorems -/

/-- `(T + L - 1) / L` is the ceiling of `T / L`: the unique integer whose
product with `L` first reaches `T`. -/
theorem ceil_mul_bounds (T L : Nat) (hL : 0 < L) :
    T ≤ ((T + L - 1) / L) * L ∧ ((T + L - 1) / L) * L < T + L := by
  rcases Nat.eq_zero_or_pos T with rfl | hT
  · have h0 : (0 + L - 1) / L = 0 := Nat.div_eq_of_lt (by omega)
    rw [h0]
    omega
  · have key : T + L - 1 = (T - 1) + L := by omega
    rw [key, Nat.add_div_right _ hL]
    constructor
    · by_contra hcon
      push_neg at hcon
      have h1 : ((T - 1) / L + 1) * L ≤ T - 1 := Nat.le_sub_one_of_lt hcon
      have h2 : (T - 1) / L + 1 ≤ (T - 1) / L := (Nat.le_div_iff_mul_le hL).mpr h1
      omega
    · have h3 : ((T - 1) / L) * L ≤ T - 1 := Nat.div_mul_le_self _ _
      calc ((T - 1) / L + 1) * L = ((T - 1) / L) * L + L := by ring
        _ ≤ (T - 1) + L := Nat.add_le_add_right h3 L
        _ < T + L := by omega

/-- C1.  For every `getCars` invocation that returns (with a positive
`limit`, the only case where `Math.ceil(total / limit)` denotes an
integer): the reported `total` is the count of listings matching exactly
the page-fetch predicate `carMatches`, the returned listings array has
length at most `limit`, and `pages` is the ceiling of `total / limit`
(characterized as the unique integer with
`total ≤ pages * limit < total + limit`). -/
theorem getCars_pagination_spec (authUserId : Option String)
    (p : GetCarsParams) (db : DB) (r : GetCarsOk) (hl : 0 < p.limit)
    (h : getCars authUserId p db = Except.ok r) :
    r.pagination.total = (matchingCars p db).length
      ∧ r.data.length ≤ p.limit.toNat
      ∧ (r.pagination.total : Int) ≤ r.pagination.pages * p.limit
      ∧ r.pagination.pages * p.limit < (r.pagination.total : Int) + p.limit := by
  rw [getCars] at h
  split at h
  · exact absurd h (by simp)
  · split at h
    · exact absurd h (by simp)
    · rw [Except.ok.injEq] at h
      subst h
      have hL : 0 < p.limit.toNat := by omega
      have hlim : (p.limit.toNat : Int) = p.limit := Int.toNat_of_nonneg hl.le
      obtain ⟨h1, h2⟩ := ceil_mul_bounds (matchingCars p db).length p.limit.toNat hL
      refine ⟨rfl, ?_, ?_, ?_⟩
      · rw [List.length_map, jsTake, if_pos hl.le]
        exact List.length_take_le _ _
      · show ((matchingCars p db).length : Int) ≤ jsCeilDiv _ p.limit * p.limit
        rw [jsCeilDiv, if_pos hl, ← hlim]
        exact_mod_cast h1
      · show jsCeilDiv _ p.limit * p.limit < ((matchingCars p db).length : Int) + p.limit
        rw [jsCeilDiv, if_pos hl, ← hlim]
        exact_mod_cast h2

/-- Concrete run of `getCars_pagination_spec`: default parameters over the
ten-listing store. -/
theorem getCars_pagination_spec_witness :
    ∃ r, getCars none {} db10 = Except.ok r
      ∧ r.pagination.total = (matchingCars {} db10).length
      ∧ r.data.length ≤ ({} : GetCarsParams).limit.toNat
      ∧ (r.pagination.total : Int) ≤ r.pagination.pages * ({} : GetCarsParams).limit
      ∧ r.pagination.pages * ({} : GetCarsParams).limit
          < (r.pagination.total : Int) + ({} : GetCarsParams).limit := by
  obtain ⟨r, hr⟩ : ∃ r, getCars none {} db10 = Except.ok r := ⟨_, rfl⟩
  have h := getCars_pagination_spec none {} db10 r (by decide) hr
  exact ⟨r, hr, h.1, h.2.1, h.2.2.1, h.2.2.2⟩

/-- Sorting a page preserves its length. -/
theorem sortCars_length (s : SortBy) (l : List Car) :
    (sortCars s l).length = l.length := by
  cases s <;> simp [sortCars, List.length_insertionSort]

/-- C5.  A page past the end of the matching set is not an error: with a
positive `limit`, a `page ≥ 1` and `(page - 1) * limit ≥ total`, `getCars`
returns an empty listings array while the pagination metadata still carries
the true total and `pages = ceil(total / limit)`. -/
theorem getCars_out_of_range_page (authUserId : Option String)
    (p : GetCarsParams) (db : DB) (hbad : maxPriceBad p = false)
    (hl : 0 < p.limit) (hpage : 1 ≤ p.page)
    (hout : ((matchingCars p db).length : Int) ≤ (p.page - 1) * p.limit) :
    ∃ r, getCars authUserId p db = Except.ok r
      ∧ r.data = []
      ∧ r.pagination.total = (matchingCars p db).length
      ∧ (r.pagination.total : Int) ≤ r.pagination.pages * p.limit
      ∧ r.pagination.pages * p.limit < (r.pagination.total : Int) + p.limit := by
  have hb : ¬(maxPriceBad p = true) := by simp [hbad]
  have hskip : ¬((p.page - 1) * p.limit < 0) := by
    have : (0 : Int) ≤ (p.page - 1) * p.limit :=
      mul_nonneg (by omega) hl.le
    omega
  have hdata :
      (jsTake ((sortCars p.sortBy (matchingCars p db)).drop
          ((p.page - 1) * p.limit).toNat) p.limit).map
        (fun c => serializeCarData c
          ((wishlistedIds (dbUserOf authUserId db) db).contains c.id)) = [] := by
    have h1 : (sortCars p.sortBy (matchingCars p db)).length
        ≤ ((p.page - 1) * p.limit).toNat := by
      rw [sortCars_length]
      have h2 := Int.toNat_le_toNat hout
      simpa using h2
    rw [List.drop_eq_nil_of_le h1, jsTake, if_pos hl.le]
    simp
  have hL : 0 < p.limit.toNat := by omega
  have hlim : (p.limit.toNat : Int) = p.limit := Int.toNat_of_nonneg hl.le
  obtain ⟨h1, h2⟩ := ceil_mul_bounds (matchingCars p db).length p.limit.toNat hL
  refine ⟨_, by rw [getCars, if_neg hb, if_neg hskip], hdata, rfl, ?_, ?_⟩
  · show ((matchingCars p db).length : Int) ≤ jsCeilDiv _ p.limit * p.limit
    rw [jsCeilDiv, if_pos hl, ← hlim]
    exact_mod_cast h1
  · show jsCeilDiv _ p.limit * p.limit < ((matchingCars p db).length : Int) + p.limit
    rw [jsCeilDiv, if_pos hl, ← hlim]
    exact_mod_cast h2

/-- Concrete run of `getCars_out_of_range_page`: the spec's worked example,
`page = 3`, `limit = 6` over ten matching listings (`pages = 2`, empty
page, no error). -/
theorem getCars_out_of_range_page_witness :
    ∃ r, getCars none { page := 3 } db10 = Except.ok r
      ∧ r.data = []
      ∧ r.pagination.total = (matchingCars { page := 3 } db10).length
      ∧ (r.pagination.total : Int)
          ≤ r.pagination.pages * ({ page := 3 } : GetCarsParams).limit
      ∧ r.pagination.pages * ({ page := 3 } : GetCarsParams).limit
          < (r.pagination.total : Int) + ({ page := 3 } : GetCarsParams).limit :=
  getCars_out_of_range_page none { page := 3 } db10 (by decide) (by decide)
    (by decide) (by decide)

/-- C4 counterexample.  At `page = 0` (default `limit = 6`) over the
ten-listing store, `getCars` computes `skip = -6` and throws, while the
same invocation at `page = 1` succeeds — `page ≤ 0` is not treated as
`page = 1`. -/
theorem getCars_page_zero_cex :
    getCars none { page := 0 } db10 = Except.error "Error fetching cars: negative skip"
      ∧ ∃ r, getCars none {} db10 = Except.ok r := by
  exact ⟨rfl, ⟨_, rfl⟩⟩

/-- C4 amended.  For `page ≤ 0` with a positive `limit` (and a well-formed
price filter), `getCars` computes the negative skip `(page - 1) * limit`
with no clamping and the store rejects it: the invocation throws instead of
being treated as `page = 1`. -/
theorem getCars_nonpositive_page_errors (authUserId : Option String)
    (p : GetCarsParams) (db : DB) (hbad : maxPriceBad p = false)
    (hl : 0 < p.limit) (hp : p.page ≤ 0) :
    getCars authUserId p db = Except.error "Error fetching cars: negative skip" := by
  have hb : ¬(maxPriceBad p = true) := by simp [hbad]
  have hskip : (p.page - 1) * p.limit < 0 := mul_neg_of_neg_of_pos (by omega) hl
  rw [getCars, if_neg hb, if_pos hskip]

/-- Concrete run of `getCars_nonpositive_page_errors` at `page = 0`. -/
theorem getCars_nonpositive_page_errors_witness :
    getCars none { page := 0 } db10
      = Except.error "Error fetching cars: negative skip" :=
  getCars_nonpositive_page_errors none { page := 0 } db10 (by decide) (by decide)
    (by decide)

/-- C3 counterexample.  A supplied numeric `maxPrice = 0` is falsy, so the
`lte` bound is never installed: the 20000-priced listing is in the match
set even though its price exceeds the supplied bound. -/
theorem getCars_maxPrice_zero_cex :
    car2 ∈ matchingCars { maxPrice := StrNum.num 0 } db2
      ∧ ¬(car2.price ≤ 0)
      ∧ ({ maxPrice := StrNum.num 0 } : GetCarsParams).maxPrice = StrNum.num 0 := by
  decide

/-- C3 amended.  Every listing in the match set satisfies
`price ≥ minPriceVal` (which is 0 when `minPrice` is absent), and
`price ≤ v` whenever the upper bound `maxPriceVal = some v` is installed —
which happens exactly for a truthy `maxPrice`; an absent `maxPrice` (the
empty-string default) installs no upper bound, and neither does the falsy
numeric 0. -/
theorem getCars_price_bounds (p : GetCarsParams) (db : DB) (c : Car)
    (hc : c ∈ matchingCars p db) :
    minPriceVal p ≤ c.price
      ∧ (∀ v, maxPriceVal p = some v → c.price ≤ v)
      ∧ (p.minPrice = StrNum.str "" → minPriceVal p = 0)
      ∧ (p.maxPrice = StrNum.str "" → maxPriceVal p = none) := by
  have hm : carMatches p c = true := (List.mem_filter.mp hc).2
  simp only [carMatches, Bool.and_eq_true, decide_eq_true_eq] at hm
  refine ⟨hm.1.2, ?_, ?_, ?_⟩
  · intro v hv
    have h8 := hm.2
    rw [hv] at h8
    exact of_decide_eq_true h8
  · intro h
    rw [minPriceVal, h]
    rfl
  · intro h
    rw [maxPriceVal, h]
    rfl

/-- Concrete run of `getCars_price_bounds`: a truthy `maxPrice = 30000`
bounds the matched listing's price. -/
theorem getCars_price_bounds_witness :
    minPriceVal { maxPrice := StrNum.num 30000 } ≤ car2.price
      ∧ (∀ v, maxPriceVal { maxPrice := StrNum.num 30000 } = some v → car2.price ≤ v)
      ∧ (({ maxPrice := StrNum.num 30000 } : GetCarsParams).minPrice = StrNum.str ""
          → minPriceVal { maxPrice := StrNum.num 30000 } = 0)
      ∧ (({ maxPrice := StrNum.num 30000 } : GetCarsParams).maxPrice = StrNum.str ""
          → maxPriceVal { maxPrice := StrNum.num 30000 } = none) :=
  getCars_price_bounds { maxPrice := StrNum.num 30000 } db2 car2 (by decide)

/-- A `find?` miss means no element satisfies the predicate. -/
theorem any_eq_false_of_find?_none {α : Type} (p : α → Bool) (l : List α)
    (h : l.find? p = none) : l.any p = false := by
  rw [← Bool.not_eq_true, List.any_eq_true]
  rintro ⟨x, hx, hpx⟩
  exact (List.find?_eq_none.mp h x hx) hpx

/-- A `find?` hit means some element satisfies the predicate. -/
theorem any_eq_true_of_find?_some {α : Type} (p : α → Bool) (l : List α)
    (a : α) (h : l.find? p = some a) : l.any p = true :=
  List.any_eq_true.mpr ⟨a, List.mem_of_find?_eq_some h, List.find?_some h⟩

/-- After deleting every row matching `p`, a `find?` for `p` misses. -/
theorem find?_filter_not_none {α : Type} (p : α → Bool) (l : List α) :
    (l.filter (fun x => !(p x))).find? p = none := by
  rw [List.find?_eq_none]
  intro x hx
  have h := (List.mem_filter.mp hx).2
  simp only [Bool.not_eq_true'] at h
  simp [h]

/-- After deleting every row matching `p`, an `any` for `p` is false. -/
theorem any_filter_not_false {α : Type} (p : α → Bool) (l : List α) :
    (l.filter (fun x => !(p x))).any p = false :=
  any_eq_false_of_find?_none p _ (find?_filter_not_none p l)

/-- C2.  For an authenticated caller with a user record and an existing
listing, `toggleSavedCar` flips the (user, listing) association: the
reported `saved` flag is the negation of the prior association state and the
store afterwards holds the association exactly when it did not before;
toggling twice restores the original saved state, and the second toggle's
`saved` flag is the negation of the first's. -/
theorem toggleSavedCar_spec (uid carId : String) (db : DB) (user : User)
    (car : Car)
    (hu : db.users.find? (fun u => u.clerkUserId = uid) = some user)
    (hc : db.cars.find? (fun c => c.id = carId) = some car) :
    ((toggleSavedCar (some uid) carId db).1.savedFlag
        = some (!savedAssoc db user.id carId))
      ∧ savedAssoc (toggleSavedCar (some uid) carId db).2 user.id carId
          = !savedAssoc db user.id carId
      ∧ (toggleSavedCar (some uid) carId
            (toggleSavedCar (some uid) carId db).2).1.savedFlag
          = some (savedAssoc db user.id carId)
      ∧ savedAssoc (toggleSavedCar (some uid) carId
            (toggleSavedCar (some uid) carId db).2).2 user.id carId
          = savedAssoc db user.id carId := by
  rcases hs : db.savedCars.find? (fun s => s.userId = user.id && s.carId = carId)
    with _ | s
  · -- association absent: the first toggle creates it, the second deletes it
    have hsaved : savedAssoc db user.id carId = false :=
      any_eq_false_of_find?_none _ _ hs
    have t1 : toggleSavedCar (some uid) carId db =
        (ToggleResult.ok true "Car added to favorites",
          { db with savedCars := db.savedCars ++ [newSavedRec user.id carId] }) := by
      simp only [toggleSavedCar, hu, hc, hs]
    have hs2 : (db.savedCars ++ [newSavedRec user.id carId]).find?
          (fun s => s.userId = user.id && s.carId = carId)
        = some (newSavedRec user.id carId) := by
      rw [List.find?_append, hs, Option.none_or]
      simp [List.find?_cons, newSavedRec]
    have t2 : toggleSavedCar (some uid) carId
          (toggleSavedCar (some uid) carId db).2 =
        (ToggleResult.ok false "Car removed from favorites",
          { db with savedCars :=
              ((db.savedCars ++ [newSavedRec user.id carId]).filter
                (fun s => !(s.userId = user.id && s.carId = carId))) }) := by
      rw [t1]
      simp only [toggleSavedCar, hu, hc, hs2]
    refine ⟨?_, ?_, ?_, ?_⟩
    · rw [t1, hsaved]
      rfl
    · rw [t1, hsaved]
      have hs' : db.savedCars.any
          (fun s => s.userId = user.id && s.carId = carId) = false := hsaved
      show (db.savedCars ++ [newSavedRec user.id carId]).any
          (fun s => s.userId = user.id && s.carId = carId) = !false
      rw [List.any_append, hs']
      simp [newSavedRec]
    · rw [t2, hsaved]
      rfl
    · rw [t2, hsaved]
      show ((db.savedCars ++ [newSavedRec user.id carId]).filter
            (fun s => !(s.userId = user.id && s.carId = carId))).any
          (fun s => s.userId = user.id && s.carId = carId) = false
      exact any_filter_not_false _ _
  · -- association present: the first toggle deletes it, the second re-creates it
    have hsaved : savedAssoc db user.id carId = true :=
      any_eq_true_of_find?_some _ _ _ hs
    have t1 : toggleSavedCar (some uid) carId db =
        (ToggleResult.ok false "Car removed from favorites",
          { db with savedCars :=
              (db.savedCars.filter
                (fun s => !(s.userId = user.id && s.carId = carId))) }) := by
      simp only [toggleSavedCar, hu, hc, hs]
    have hs2 : (db.savedCars.filter
          (fun s => !(s.userId = user.id && s.carId = carId))).find?
          (fun s => s.userId = user.id && s.carId = carId) = none :=
      find?_filter_not_none _ _
    have t2 : toggleSavedCar (some uid) carId
          (toggleSavedCar (some uid) carId db).2 =
        (ToggleResult.ok true "Car added to favorites",
          { db with savedCars :=
              (db.savedCars.filter
                  (fun s => !(s.userId = user.id && s.carId = carId)) ++
                [newSavedRec user.id carId]) }) := by
      rw [t1]
      simp only [toggleSavedCar, hu, hc, hs2]
    refine ⟨?_, ?_, ?_, ?_⟩
    · rw [t1, hsaved]
      rfl
    · rw [t1, hsaved]
      show (db.savedCars.filter
            (fun s => !(s.userId = user.id && s.carId = carId))).any
          (fun s => s.userId = user.id && s.carId = carId) = !true
      rw [any_filter_not_false]
      rfl
    · rw [t2, hsaved]
      rfl
    · rw [t2, hsaved]
      show (db.savedCars.filter
              (fun s => !(s.userId = user.id && s.carId = carId)) ++
            [newSavedRec user.id carId]).any
          (fun s => s.userId = user.id && s.carId = carId) = true
      rw [List.any_append, any_filter_not_false]
      simp [newSavedRec]

/-- Concrete run of `toggleSavedCar_spec`: `user1` toggles `car1` twice on
`db2`. -/
theorem toggleSavedCar_spec_witness :
    ((toggleSavedCar (some "clerk1") "c1" db2).1.savedFlag
        = some (!savedAssoc db2 user1.id "c1"))
      ∧ savedAssoc (toggleSavedCar (some "clerk1") "c1" db2).2 user1.id "c1"
          = !savedAssoc db2 user1.id "c1"
      ∧ (toggleSavedCar (some "clerk1") "c1"
            (toggleSavedCar (some "clerk1") "c1" db2).2).1.savedFlag
          = some (savedAssoc db2 user1.id "c1")
      ∧ savedAssoc (toggleSavedCar (some "clerk1") "c1"
            (toggleSavedCar (some "clerk1") "c1" db2).2).2 user1.id "c1"
          = savedAssoc db2 user1.id "c1" :=
  toggleSavedCar_spec "clerk1" "c1" db2 user1 car1 (by decide) (by decide)

/-- A `min`-fold is bounded by its seed. -/
theorem foldl_min_le_init (xs : List Int) : ∀ x : Int, xs.foldl min x ≤ x := by
  induction xs with
  | nil => intro x; simp
  | cons a t ih =>
    intro x
    rw [List.foldl_cons]
    calc t.foldl min (min x a) ≤ min x a := ih _
      _ ≤ x := min_le_left _ _

/-- A `min`-fold is bounded by every list element. -/
theorem foldl_min_le_mem (xs : List Int) :
    ∀ x y : Int, y ∈ xs → xs.foldl min x ≤ y := by
  induction xs with
  | nil => intro x y h; simp at h
  | cons a t ih =>
    intro x y h
    rw [List.foldl_cons]
    rcases List.mem_cons.mp h with rfl | h2
    · calc t.foldl min (min x y) ≤ min x y := foldl_min_le_init _ _
        _ ≤ y := min_le_right _ _
    · exact ih _ y h2

/-- A `min`-fold returns its seed or a list element. -/
theorem foldl_min_mem (xs : List Int) :
    ∀ x : Int, xs.foldl min x = x ∨ xs.foldl min x ∈ xs := by
  induction xs with
  | nil => intro x; left; rfl
  | cons a t ih =>
    intro x
    rw [List.foldl_cons]
    rcases ih (min x a) with h | h
    · rw [h]
      rcases min_choice x a with h2 | h2
      · left; exact h2
      · right; rw [h2]; exact List.mem_cons_self a t
    · right; exact List.mem_cons_of_mem a h

/-- A `max`-fold dominates its seed. -/
theorem foldl_max_ge_init (xs : List Int) : ∀ x : Int, x ≤ xs.foldl max x := by
  induction xs with
  | nil => intro x; simp
  | cons a t ih =>
    intro x
    rw [List.foldl_cons]
    calc x ≤ max x a := le_max_left _ _
      _ ≤ t.foldl max (max x a) := ih _

/-- A `max`-fold dominates every list element. -/
theorem foldl_max_ge_mem (xs : List Int) :
    ∀ x y : Int, y ∈ xs → y ≤ xs.foldl max x := by
  induction xs with
  | nil => intro x y h; simp at h
  | cons a t ih =>
    intro x y h
    rw [List.foldl_cons]
    rcases List.mem_cons.mp h with rfl | h2
    · calc y ≤ max x y := le_max_right _ _
        _ ≤ t.foldl max (max x y) := foldl_max_ge_init _ _
    · exact ih _ y h2

/-- A `max`-fold returns its seed or a list element. -/
theorem foldl_max_mem (xs : List Int) :
    ∀ x : Int, xs.foldl max x = x ∨ xs.foldl max x ∈ xs := by
  induction xs with
  | nil => intro x; left; rfl
  | cons a t ih =>
    intro x
    rw [List.foldl_cons]
    rcases ih (max x a) with h | h
    · rw [h]
      rcases max_choice x a with h2 | h2
      · left; exact h2
      · right; rw [h2]; exact List.mem_cons_self a t
    · right; exact List.mem_cons_of_mem a h

/-- `listMin` bounds every element from below. -/
theorem listMin_le (l : List Int) (m : Int) (h : listMin l = some m) :
    ∀ y ∈ l, m ≤ y := by
  cases l with
  | nil => simp [listMin] at h
  | cons a t =>
    simp only [listMin, Option.some.injEq] at h
    subst h
    intro y hy
    rcases List.mem_cons.mp hy with rfl | h2
    · exact foldl_min_le_init t y
    · exact foldl_min_le_mem t a y h2

/-- `listMin` returns an element of the list. -/
theorem listMin_mem (l : List Int) (m : Int) (h : listMin l = some m) :
    m ∈ l := by
  cases l with
  | nil => simp [listMin] at h
  | cons a t =>
    simp only [listMin, Option.some.injEq] at h
    subst h
    rcases foldl_min_mem t a with h2 | h2
    · rw [h2]; exact List.mem_cons_self a t
    · exact List.mem_cons_of_mem a h2

/-- `listMax` bounds every element from above. -/
theorem listMax_ge (l : List Int) (m : Int) (h : listMax l = some m) :
    ∀ y ∈ l, y ≤ m := by
  cases l with
  | nil => simp [listMax] at h
  | cons a t =>
    simp only [listMax, Option.some.injEq] at h
    subst h
    intro y hy
    rcases List.mem_cons.mp hy with rfl | h2
    · exact foldl_max_ge_init t y
    · exact foldl_max_ge_mem t a y h2

/-- `listMax` returns an element of the list. -/
theorem listMax_mem (l : List Int) (m : Int) (h : listMax l = some m) :
    m ∈ l := by
  cases l with
  | nil => simp [listMax] at h
  | cons a t =>
    simp only [listMax, Option.some.injEq] at h
    subst h
    rcases foldl_max_mem t a with h2 | h2
    · rw [h2]; exact List.mem_cons_self a t
    · exact List.mem_cons_of_mem a h2

/-- `distinctSorted` output is strictly ascending (sorted and duplicate
free). -/
theorem distinctSorted_sorted (l : List String) :
    List.Sorted (· < ·) (distinctSorted l) := by
  have hs : List.Sorted (· ≤ ·) (distinctSorted l) :=
    List.sorted_insertionSort _ _
  have hn : (distinctSorted l).Nodup :=
    ((List.perm_insertionSort _ _).nodup_iff).mpr (List.nodup_dedup l)
  exact List.Sorted.lt_of_le hs hn

/-- `distinctSorted` keeps exactly the values of its input. -/
theorem distinctSorted_mem (l : List String) (b : String) :
    b ∈ distinctSorted l ↔ b ∈ l := by
  simp [distinctSorted, List.mem_insertionSort, List.mem_dedup]

/-- A non-empty list has a minimum. -/
theorem listMin_of_ne_nil (l : List Int) (h : l ≠ []) :
    ∃ m, listMin l = some m := by
  cases l with
  | nil => exact absurd rfl h
  | cons a t => exact ⟨_, rfl⟩

/-- A non-empty list has a maximum. -/
theorem listMax_of_ne_nil (l : List Int) (h : l ≠ []) :
    ∃ m, listMax l = some m := by
  cases l with
  | nil => exact absurd rfl h
  | cons a t => exact ⟨_, rfl⟩

/-- C6.  `getCarFilters` returns the distinct brands, body types, fuel
types and transmissions of the AVAILABLE listings only, each strictly
ascending (sorted, duplicate free); the price range is the min/max over
that same set, defaulting to 0/100000 when no AVAILABLE listing exists; and
in every case `max ≥ min`. -/
theorem getCarFilters_spec (db : DB) :
    List.Sorted (· < ·) (getCarFilters db).brands
      ∧ (∀ b, b ∈ (getCarFilters db).brands
          ↔ ∃ c ∈ availableCars db, c.brand = b)
      ∧ List.Sorted (· < ·) (getCarFilters db).bodyTypes
      ∧ (∀ b, b ∈ (getCarFilters db).bodyTypes
          ↔ ∃ c ∈ availableCars db, c.bodyType = b)
      ∧ List.Sorted (· < ·) (getCarFilters db).fuelTypes
      ∧ (∀ b, b ∈ (getCarFilters db).fuelTypes
          ↔ ∃ c ∈ availableCars db, c.fuelType = b)
      ∧ List.Sorted (· < ·) (getCarFilters db).transmissions
      ∧ (∀ b, b ∈ (getCarFilters db).transmissions
          ↔ ∃ c ∈ availableCars db, c.transmission = b)
      ∧ (availableCars db = [] →
          (getCarFilters db).priceRange.min = 0
            ∧ (getCarFilters db).priceRange.max = 100000)
      ∧ (∀ c ∈ availableCars db,
          (getCarFilters db).priceRange.min ≤ c.price
            ∧ c.price ≤ (getCarFilters db).priceRange.max)
      ∧ (availableCars db ≠ [] →
          (∃ c ∈ availableCars db,
              (getCarFilters db).priceRange.min = c.price)
            ∧ ∃ c ∈ availableCars db,
                (getCarFilters db).priceRange.max = c.price)
      ∧ (getCarFilters db).priceRange.min ≤ (getCarFilters db).priceRange.max := by
  have hmem : ∀ (f : Car → String) (b : String),
      (b ∈ distinctSorted ((availableCars db).map f)
        ↔ ∃ c ∈ availableCars db, f c = b) := by
    intro f b
    rw [distinctSorted_mem, List.mem_map]
  refine ⟨distinctSorted_sorted _, hmem _, distinctSorted_sorted _, hmem _,
    distinctSorted_sorted _, hmem _, distinctSorted_sorted _, hmem _,
    ?_, ?_, ?_, ?_⟩
  · intro h
    exact ⟨by simp [getCarFilters, h, listMin],
      by simp [getCarFilters, h, listMax]⟩
  · intro c hc
    have hcp : c.price ∈ (availableCars db).map (fun c => c.price) :=
      List.mem_map.mpr ⟨c, hc, rfl⟩
    obtain ⟨m, hm⟩ := listMin_of_ne_nil _ (List.ne_nil_of_mem hcp)
    obtain ⟨M, hM⟩ := listMax_of_ne_nil _ (List.ne_nil_of_mem hcp)
    have h1 : (getCarFilters db).priceRange.min = m := by
      simp [getCarFilters, hm]
    have h2 : (getCarFilters db).priceRange.max = M := by
      simp [getCarFilters, hM]
    rw [h1, h2]
    exact ⟨listMin_le _ _ hm _ hcp, listMax_ge _ _ hM _ hcp⟩
  · intro hA
    obtain ⟨c, hc⟩ := List.exists_mem_of_ne_nil _ hA
    have hcp : c.price ∈ (availableCars db).map (fun c => c.price) :=
      List.mem_map.mpr ⟨c, hc, rfl⟩
    obtain ⟨m, hm⟩ := listMin_of_ne_nil _ (List.ne_nil_of_mem hcp)
    obtain ⟨M, hM⟩ := listMax_of_ne_nil _ (List.ne_nil_of_mem hcp)
    have h1 : (getCarFilters db).priceRange.min = m := by
      simp [getCarFilters, hm]
    have h2 : (getCarFilters db).priceRange.max = M := by
      simp [getCarFilters, hM]
    constructor
    · obtain ⟨c', hc', hcp'⟩ := List.mem_map.mp (listMin_mem _ _ hm)
      exact ⟨c', hc', by rw [h1, hcp']⟩
    · obtain ⟨c', hc', hcp'⟩ := List.mem_map.mp (listMax_mem _ _ hM)
      exact ⟨c', hc', by rw [h2, hcp']⟩
  · by_cases hA : availableCars db = []
    · simp [getCarFilters, hA, listMin, listMax]
    · obtain ⟨c, hc⟩ := List.exists_mem_of_ne_nil _ hA
      have hcp : c.price ∈ (availableCars db).map (fun c => c.price) :=
        List.mem_map.mpr ⟨c, hc, rfl⟩
      obtain ⟨m, hm⟩ := listMin_of_ne_nil _ (List.ne_nil_of_mem hcp)
      obtain ⟨M, hM⟩ := listMax_of_ne_nil _ (List.ne_nil_of_mem hcp)
      have h1 : (getCarFilters db).priceRange.min = m := by
        simp [getCarFilters, hm]
      have h2 : (getCarFilters db).priceRange.max = M := by
        simp [getCarFilters, hM]
      rw [h1, h2]
      exact listMax_ge _ _ hM _ (listMin_mem _ _ hm)

/-- C7 evaluation at the failing input.  `db7` holds one listing `c1` and a
PENDING booking `b1` owned by `user2`; the caller is unauthenticated, so
`userId: dbUser?.id` is `undefined`, Prisma omits the user condition, and
`getCarById` returns `user2`'s booking as `userTestDrive` instead of
`null`. -/
theorem getCarById_foreign_booking_bug :
    ∃ d, getCarById none "c1" db7 = Except.ok d
      ∧ d.testDriveInfo.userTestDrive
          = some { id := "b1", status := BookingStatus.PENDING,
                   bookingDate := isoString 5 } := by
  exact ⟨_, rfl, rfl⟩

/-- C8.  Whenever the caller fails the admin gate — unauthenticated, no
user record for the verified identity, or a freshly looked-up role other
than ADMIN — both `saveWorkingHours` and `updateUserRole` report a failure
and leave the store untouched, for every client-supplied payload (the
`role` argument in particular is never consulted by the check). -/
theorem admin_ops_guard (authUserId : Option String) (hours : List WorkingHour)
    (id : String) (role : UserRole) (db : DB)
    (h : isAdminCaller authUserId db = false) :
    (∃ e, saveWorkingHours authUserId hours db = (Except.error e, db))
      ∧ ∃ e, updateUserRole authUserId id role db = (Except.error e, db) := by
  constructor
  · cases authUserId with
    | none => exact ⟨_, rfl⟩
    | some uid =>
      cases hu : db.users.find? (fun u => u.clerkUserId = uid) with
      | none =>
        simp only [saveWorkingHours, hu]
        exact ⟨_, rfl⟩
      | some u =>
        simp only [isAdminCaller, hu] at h
        simp only [saveWorkingHours, hu]
        rw [if_neg (of_decide_eq_false h)]
        exact ⟨_, rfl⟩
  · by_cases hid : id = ""
    · simp only [updateUserRole, if_pos hid]
      exact ⟨_, rfl⟩
    · simp only [updateUserRole, if_neg hid]
      cases authUserId with
      | none => exact ⟨_, rfl⟩
      | some uid =>
        cases hu : db.users.find? (fun u => u.clerkUserId = uid) with
        | none =>
          simp only [hu]
          exact ⟨_, rfl⟩
        | some u =>
          simp only [isAdminCaller, hu] at h
          simp only [hu]
          rw [if_neg (of_decide_eq_false h)]
          exact ⟨_, rfl⟩

/-- Concrete run of `admin_ops_guard`: `user1` (role USER) can neither
replace working hours nor change `user2`'s role, and `db2` is unchanged. -/
theorem admin_ops_guard_witness :
    (∃ e, saveWorkingHours (some "clerk1") [] db2 = (Except.error e, db2))
      ∧ ∃ e, updateUserRole (some "clerk1") "u2" UserRole.ADMIN db2
          = (Except.error e, db2) :=
  admin_ops_guard (some "clerk1") [] "u2" UserRole.ADMIN db2 (by decide)

/-- C9.  On a store with no dealership row (and hence, by the schema's
foreign key, no working-hour rows), the first authenticated read of
dealership info creates exactly one dealership row carrying the seven
documented default working-hour entries — Monday to Friday 09:00-18:00
open, Saturday 10:00-16:00 open, Sunday 10:00-16:00 with `isOpen = false`
— and returns that record. -/
theorem getDealershipInfo_lazy_create (uid : String) (db : DB)
    (hd : db.dealerships = []) (hw : db.workingHours = []) :
    getDealershipInfo (some uid) db =
      (Except.ok
        { id := newDealershipId db
          name := "Autora Motors"
          address := "69 Car Street, MH,IN"
          phone := "+91 12345 67890"
          email := "contact@autora.com"
          createdAt := isoString 0
          updatedAt := isoString 0
          workingHours :=
            [ { id := newDealershipId db ++ "/MONDAY",
                dealershipId := newDealershipId db, dayOfWeek := .MONDAY,
                openTime := "09:00", closeTime := "18:00", isOpen := true },
              { id := newDealershipId db ++ "/TUESDAY",
                dealershipId := newDealershipId db, dayOfWeek := .TUESDAY,
                openTime := "09:00", closeTime := "18:00", isOpen := true },
              { id := newDealershipId db ++ "/WEDNESDAY",
                dealershipId := newDealershipId db, dayOfWeek := .WEDNESDAY,
                openTime := "09:00", closeTime := "18:00", isOpen := true },
              { id := newDealershipId db ++ "/THURSDAY",
                dealershipId := newDealershipId db, dayOfWeek := .THURSDAY,
                openTime := "09:00", closeTime := "18:00", isOpen := true },
              { id := newDealershipId db ++ "/FRIDAY",
                dealershipId := newDealershipId db, dayOfWeek := .FRIDAY,
                openTime := "09:00", closeTime := "18:00", isOpen := true },
              { id := newDealershipId db ++ "/SATURDAY",
                dealershipId := newDealershipId db, dayOfWeek := .SATURDAY,
                openTime := "10:00", closeTime := "16:00", isOpen := true },
              { id := newDealershipId db ++ "/SUNDAY",
                dealershipId := newDealershipId db, dayOfWeek := .SUNDAY,
                openTime := "10:00", closeTime := "16:00", isOpen := false } ] },
       { db with
           dealerships :=
             [ { id := newDealershipId db
                 name := "Autora Motors"
                 address := "69 Car Street, MH,IN"
                 phone := "+91 12345 67890"
                 email := "contact@autora.com"
                 createdAt := 0
                 updatedAt := 0 } ]
           workingHours :=
             [ { id := newDealershipId db ++ "/MONDAY",
                 dealershipId := newDealershipId db, dayOfWeek := .MONDAY,
                 openTime := "09:00", closeTime := "18:00", isOpen := true },
               { id := newDealershipId db ++ "/TUESDAY",
                 dealershipId := newDealershipId db, dayOfWeek := .TUESDAY,
                 openTime := "09:00", closeTime := "18:00", isOpen := true },
               { id := newDealershipId db ++ "/WEDNESDAY",
                 dealershipId := newDealershipId db, dayOfWeek := .WEDNESDAY,
                 openTime := "09:00", closeTime := "18:00", isOpen := true },
               { id := newDealershipId db ++ "/THURSDAY",
                 dealershipId := newDealershipId db, dayOfWeek := .THURSDAY,
                 openTime := "09:00", closeTime := "18:00", isOpen := true },
               { id := newDealershipId db ++ "/FRIDAY",
                 dealershipId := newDealershipId db, dayOfWeek := .FRIDAY,
                 openTime := "09:00", closeTime := "18:00", isOpen := true },
               { id := newDealershipId db ++ "/SATURDAY",
                 dealershipId := newDealershipId db, dayOfWeek := .SATURDAY,
                 openTime := "10:00", closeTime := "16:00", isOpen := true },
               { id := newDealershipId db ++ "/SUNDAY",
                 dealershipId := newDealershipId db, dayOfWeek := .SUNDAY,
                 openTime := "10:00", closeTime := "16:00", isOpen := false } ] }) := by
  simp only [getDealershipInfo, hd, hw, List.head?, List.nil_append]
  rfl

/-- Concrete run of `getDealershipInfo_lazy_create` on the empty store:
exactly one dealership row is created. -/
theorem getDealershipInfo_lazy_create_witness :
    ((getDealershipInfo (some "clerk1") emptyDB).2.dealerships).length = 1 := by
  rw [getDealershipInfo_lazy_create "clerk1" emptyDB rfl rfl]
  rfl

/-- C10.  When the caller is unauthenticated or has no user record
(`dbUserOf = none`), a well-formed `getCars` invocation still succeeds and
every returned listing carries `wishlisted = false`, whatever saved-listing
associations other users hold in the store. -/
theorem getCars_unauthenticated_wishlist (authUserId : Option String)
    (p : GetCarsParams) (db : DB)
    (hu : dbUserOf authUserId db = none)
    (hbad : maxPriceBad p = false)
    (hskip : 0 ≤ (p.page - 1) * p.limit) :
    ∃ r, getCars authUserId p db = Except.ok r
      ∧ ∀ c ∈ r.data, c.wishlisted = false := by
  have hb : ¬(maxPriceBad p = true) := by simp [hbad]
  have hs : ¬((p.page - 1) * p.limit < 0) := by omega
  refine ⟨_, by rw [getCars, if_neg hb, if_neg hs], ?_⟩
  intro c hc
  obtain ⟨a, ha, rfl⟩ := List.mem_map.mp hc
  simp [serializeCarData, hu, wishlistedIds]

/-- Concrete run of `getCars_unauthenticated_wishlist`: an anonymous
caller over `db2`, whose store holds a saved-listing association of
`user2`. -/
theorem getCars_unauthenticated_wishlist_witness :
    ∃ r, getCars none {} db2 = Except.ok r
      ∧ ∀ c ∈ r.data, c.wishlisted = false :=
  getCars_unauthenticated_wishlist none {} db2 rfl (by decide) (by decide)
